import Mathlib

/-!
Verification of the worker-side violation pipeline of the hard_hats
video-analytics service.

The definitions below are a shallow embedding of the Python sources:
  * `app/worker/vision.py`        — box geometry, IoU, centroid, polygon test
  * `app/worker/event_processor.py` — `ViolationTracker`, `EventProcessor`
  * `app/worker/camera_manager.py`  — camera add/update, inference dispatch
  * `app/worker/config.py`          — worker configuration constants

Conventions of the embedding:
  * pixel coordinates are `Int` (Python ints);
  * wall-clock times, confidences and IoU values are `Rat`
    (Python floats; all comparisons appearing in the code are far from
    the rounding error of IEEE doubles on the integer-derived values
    involved, so exact rationals have the same comparison outcomes);
  * Python `//` (floor division) is `Int.fdiv`; Python `int(...)` applied
    to a product with a float literal truncates toward zero and is
    embedded with `Int.tdiv` (T-division);
  * a Python `dict` is an association list updated in place;
  * fallible effectful code (`_create_event`'s `try`) is embedded as a
    function parameterised by the point at which the body raises, and
    the I/O it performs is recorded as an explicit ordered action trace.
-/

namespace HardHats

/-! ## Detection classes (`app/worker/vision.py`, lines 14-24) -/

def CLASS_HARDHAT : Int := 0
def CLASS_MASK : Int := 1
def CLASS_NO_HARDHAT : Int := 2
def CLASS_NO_MASK : Int := 3
def CLASS_NO_SAFETY_VEST : Int := 4
def CLASS_PERSON : Int := 5
def CLASS_SAFETY_CONE : Int := 6
def CLASS_SAFETY_VEST : Int := 7
def CLASS_MACHINERY : Int := 8
def CLASS_UTILITY_POLE : Int := 9
def CLASS_VEHICLE : Int := 10

/-! ## Geometry (`app/worker/vision.py`) -/

/-- Axis-aligned bounding box `(x1, y1, x2, y2)` in pixel space. -/
structure Box where
  x1 : Int
  y1 : Int
  x2 : Int
  y2 : Int
deriving DecidableEq, Repr

/-- A single YOLO detection (`infer` returns dicts with these fields;
the class-name string is derived from `class_id` and omitted here). -/
structure Detection where
  box : Box
  class_id : Int
  confidence : Rat
deriving DecidableEq, Repr

/-- `head_region(box, frac=0.30)`: the top portion of a person box.
`head_height = int(height * 0.30)`; for every integer height in range the
float product truncates to the same value as exact `3*height/10`
truncated toward zero, which is `Int.tdiv (3 * height) 10`. -/
def head_region (b : Box) : Box :=
  let height := b.y2 - b.y1
  let head_height := Int.tdiv (3 * height) 10
  ⟨b.x1, b.y1, b.x2, b.y1 + head_height⟩

/-- `box_overlap(box1, box2)`: IoU of two boxes (vision.py lines 148-169). -/
def box_overlap (b1 b2 : Box) : Rat :=
  let xi1 := max b1.x1 b2.x1
  let yi1 := max b1.y1 b2.y1
  let xi2 := min b1.x2 b2.x2
  let yi2 := min b1.y2 b2.y2
  if xi2 ≤ xi1 ∨ yi2 ≤ yi1 then 0
  else
    let inter_area := (xi2 - xi1) * (yi2 - yi1)
    let area1 := (b1.x2 - b1.x1) * (b1.y2 - b1.y1)
    let area2 := (b2.x2 - b2.x1) * (b2.y2 - b2.y1)
    let union_area := area1 + area2 - inter_area
    if union_area ≤ 0 then 0
    else (inter_area : Rat) / (union_area : Rat)

/-- `get_centroid(box)`: `((x1+x2)//2, (y1+y2)//2)` (Python floor division). -/
def get_centroid (b : Box) : Int × Int :=
  (Int.fdiv (b.x1 + b.x2) 2, Int.fdiv (b.y1 + b.y2) 2)

/-- Is point `p` on the closed segment from `a` to `b` (integer grid)? -/
def onSegment (p a b : Int × Int) : Bool :=
  (b.1 - a.1) * (p.2 - a.2) = (b.2 - a.2) * (p.1 - a.1)
    ∧ min a.1 b.1 ≤ p.1 ∧ p.1 ≤ max a.1 b.1
    ∧ min a.2 b.2 ≤ p.2 ∧ p.2 ≤ max a.2 b.2

/-- The closed edge list of a polygon given as a vertex list
(consecutive pairs plus the closing edge). -/
def polygonEdges (poly : List (Int × Int)) : List ((Int × Int) × (Int × Int)) :=
  match poly with
  | [] => []
  | v :: _ => poly.zip (poly.tail ++ [v])

/-- Does the horizontal ray from `p` to the right cross the open edge
`(a, b)`?  Standard half-open crossing rule, exact integer arithmetic. -/
def edgeCrosses (p a b : Int × Int) : Bool :=
  let orient := (b.1 - a.1) * (p.2 - a.2) - (b.2 - a.2) * (p.1 - a.1)
  if a.2 ≤ p.2 ∧ p.2 < b.2 then orient > 0
  else if b.2 ≤ p.2 ∧ p.2 < a.2 then orient < 0
  else false

/-- Model of the external `cv2.pointPolygonTest(contour, point, False)`:
per the OpenCV contract it returns `+1` when the point is strictly inside
the contour, `-1` when outside, and `0` when the point lies on an edge. -/
def pointPolygonTest (poly : List (Int × Int)) (p : Int × Int) : Int :=
  if (polygonEdges poly).any (fun e => onSegment p e.1 e.2) then 0
  else if ((polygonEdges poly).filter (fun e => edgeCrosses p e.1 e.2)).length % 2 = 1
    then 1 else -1

/-- `point_in_polygon(point, polygon)` (vision.py lines 172-176):
`cv2.pointPolygonTest(...) >= 0`. -/
def point_in_polygon (p : Int × Int) (poly : List (Int × Int)) : Bool :=
  pointPolygonTest poly p ≥ 0

/-! ## Violation tracker (`app/worker/event_processor.py`, lines 22-37) -/

/-- Python `dict` lookup on an association list. -/
def lookupEntry (m : List (String × Rat)) (k : String) : Option Rat :=
  match m with
  | [] => none
  | (k0, v) :: rest => if k0 = k then some v else lookupEntry rest k

/-- Python `dict` assignment `m[k] = v` on an association list. -/
def insertEntry (m : List (String × Rat)) (k : String) (v : Rat) :
    List (String × Rat) :=
  match m with
  | [] => [(k, v)]
  | (k0, v0) :: rest =>
      if k0 = k then (k0, v) :: rest else (k0, v0) :: insertEntry rest k v

/-- `ViolationTracker`: per-camera cooldown map (`last_violations` keyed by
the violation key string, values are `time.time()` stamps). -/
structure ViolationTracker where
  last_violations : List (String × Rat) := []
  cooldown_seconds : Rat := 30
deriving DecidableEq, Repr

/-- `ViolationTracker.should_emit(violation_key)` at wall time `now`:

    last_time = self.last_violations.get(violation_key, 0)
    if now - last_time >= self.cooldown_seconds:
        self.last_violations[violation_key] = now
        return True
    return False

Returns the result together with the (possibly mutated) tracker. -/
def should_emit (t : ViolationTracker) (now : Rat) (key : String) :
    Bool × ViolationTracker :=
  let last_time := (lookupEntry t.last_violations key).getD 0
  if now - last_time ≥ t.cooldown_seconds then
    (true, { t with last_violations := insertEntry t.last_violations key now })
  else
    (false, t)

/-! ## Worker configuration (`app/worker/config.py`) -/

def COOLDOWN_SECONDS : Rat := 30
def STREAM_FPS_MAX : Rat := 15
def DEFAULT_TARGET_FPS : Rat := 1 / 2

/-! ## Event model (`app/shared/db/models.py`) -/

inductive EventType where
  | ppe_violation
  | zone_violation
  | system_alert
deriving DecidableEq, Repr

inductive ViolationType where
  | no_hardhat
  | no_vest
  | no_mask
  | zone_breach
  | other
deriving DecidableEq, Repr

inductive Severity where
  | low
  | medium
  | high
  | critical
deriving DecidableEq, Repr

/-- The event record assembled by `EventProcessor._create_event`
(`event_data`).  The random UUID, the organization/camera identifiers and
the thumbnail path carry no information relevant to the claims and are
omitted from the embedding. -/
structure EventRec where
  event_type : EventType
  violation_type : ViolationType
  severity : Severity
  confidence : Rat
  bbox : Box
deriving DecidableEq, Repr

/-- Where, if anywhere, the body of `_create_event`'s `try` block raises.
`ok` is the normal path; the other three name the statement that raises
(`Exception` is caught at the end of `_create_event`, which then returns
`None`). -/
inductive FailPoint where
  | ok
  | thumbFail
  | insertFail
  | publishFail
deriving DecidableEq, Repr

/-- The externally visible side effects of event processing, in program
order: the tracker write performed inside `should_emit`, thumbnail
generation, the database insert (`repo.create_event`), and the bus
publish (`_publish_event`). -/
inductive Action where
  | registerKey (key : String) (t : Rat)
  | genThumbnail
  | insertRow (e : EventRec)
  | publishEvent (e : EventRec)
deriving DecidableEq, Repr

/-- `EventProcessor._create_event` (event_processor.py lines 214-280):
generate thumbnail, build the event record, insert it into the database,
then publish it to Redis; any exception is caught and `None` is returned.
The returned trace lists the effects that actually happened before the
raise (a raising statement contributes no effect). -/
def createEvent (fp : FailPoint) (event_type : EventType)
    (violation_type : ViolationType) (severity : Severity)
    (confidence : Rat) (bbox : Box) : Option EventRec × List Action :=
  let e : EventRec := ⟨event_type, violation_type, severity, confidence, bbox⟩
  match fp with
  | .thumbFail => (none, [])
  | .insertFail => (none, [.genThumbnail])
  | .publishFail => (none, [.genThumbnail, .insertRow e])
  | .ok => (some e, [.genThumbnail, .insertRow e, .publishEvent e])

/-- The deduplication key built in `_process_ppe_violations` and
`_process_zone_violations`:
`f"<kind>_{centroid[0]//50}_{centroid[1]//50}"`. -/
def violationKey (kind : String) (centroid : Int × Int) : String :=
  kind ++ "_" ++ toString (Int.fdiv centroid.1 50)
       ++ "_" ++ toString (Int.fdiv centroid.2 50)

/-- `has_no_hardhat` (event_processor.py lines 125-128): some detected
"NO-Hardhat" box overlaps the head region of the person box with
IoU > 0.1. -/
def has_no_hardhat (person_box : Box) (no_hardhats : List Detection) : Bool :=
  no_hardhats.any (fun d => box_overlap (head_region person_box) d.box > 1/10)

/-- `has_no_vest` (event_processor.py lines 148-151): some detected
"NO-Safety Vest" box overlaps the full person box with IoU > 0.1. -/
def has_no_vest (person_box : Box) (no_safety_vests : List Detection) : Bool :=
  no_safety_vests.any (fun d => box_overlap person_box d.box > 1/10)

/-- The shared shape of one `if <violation flag>: if tracker.should_emit(key):
event = await self._create_event(...)` block of `_process_ppe_violations`
and `_process_zone_violations`: when the violation flag holds and
`should_emit` admits the key, `_create_event` runs (its tracker write is
recorded as `registerKey` ahead of `_create_event`'s own effects). -/
def emitStep (fp : FailPoint) (flag : Bool) (key : String)
    (event_type : EventType) (violation_type : ViolationType)
    (severity : Severity) (confidence : Rat) (bbox : Box)
    (tracker : ViolationTracker) (now : Rat) :
    List EventRec × List Action × ViolationTracker :=
  if flag then
    let r := should_emit tracker now key
    if r.1 then
      let c := createEvent fp event_type violation_type severity confidence bbox
      (c.1.toList, Action.registerKey key now :: c.2, r.2)
    else ([], [], r.2)
  else ([], [], tracker)

/-- The per-person body of `_process_ppe_violations` (lines 119-168):
check the no-hardhat violation, then the no-vest violation, each an
`emitStep` with the code's literal arguments (severity HIGH for
no-hardhat, MEDIUM for no-vest; confidence and bbox from the person). -/
def processPersonPpe (fp : FailPoint) (no_hardhats no_safety_vests : List Detection)
    (person : Detection) (tracker : ViolationTracker) (now : Rat) :
    List EventRec × List Action × ViolationTracker :=
  let person_box := person.box
  let centroid := get_centroid person_box
  let step1 := emitStep fp (has_no_hardhat person_box no_hardhats)
    (violationKey "no_hardhat" centroid) .ppe_violation .no_hardhat .high
    person.confidence person_box tracker now
  let step2 := emitStep fp (has_no_vest person_box no_safety_vests)
    (violationKey "no_vest" centroid) .ppe_violation .no_vest .medium
    person.confidence person_box step1.2.2 now
  (step1.1 ++ step2.1, step1.2.1 ++ step2.2.1, step2.2.2)

/-- The `for person in persons` loop of `_process_ppe_violations`,
threading the tracker and accumulating events and effects in order. -/
def runPersonsPpe (fp : FailPoint) (no_hardhats no_safety_vests : List Detection)
    (now : Rat) :
    List Detection → ViolationTracker → List EventRec × List Action × ViolationTracker
  | [], tracker => ([], [], tracker)
  | person :: rest, tracker =>
      let r := processPersonPpe fp no_hardhats no_safety_vests person tracker now
      let rr := runPersonsPpe fp no_hardhats no_safety_vests now rest r.2.2
      (r.1 ++ rr.1, r.2.1 ++ rr.2.1, rr.2.2)

/-- `EventProcessor._process_ppe_violations` (lines 101-170): split the
detections by class, then process each person.  (The source also builds
`hardhats` and `safety_vests` lists of the positive classes, but never
reads them in this function, so they are omitted.) -/
def processPpeViolations (fp : FailPoint) (detections : List Detection)
    (tracker : ViolationTracker) (now : Rat) :
    List EventRec × List Action × ViolationTracker :=
  let persons := detections.filter (fun d => d.class_id = CLASS_PERSON)
  let no_hardhats := detections.filter (fun d => d.class_id = CLASS_NO_HARDHAT)
  let no_safety_vests :=
    detections.filter (fun d => d.class_id = CLASS_NO_SAFETY_VEST)
  runPersonsPpe fp no_hardhats no_safety_vests now persons tracker

/-- The per-person body of `_process_zone_violations` (lines 191-210): an
`emitStep` whose violation flag is the centroid-in-polygon test, with
severity CRITICAL and kind zone-breach. -/
def processPersonZone (fp : FailPoint) (polygon : List (Int × Int))
    (person : Detection) (tracker : ViolationTracker) (now : Rat) :
    List EventRec × List Action × ViolationTracker :=
  let person_box := person.box
  let centroid := get_centroid person_box
  emitStep fp (point_in_polygon centroid polygon) (violationKey "zone" centroid)
    .zone_violation .zone_breach .critical person.confidence person_box tracker now

/-- The `for person in persons` loop of `_process_zone_violations`. -/
def runPersonsZone (fp : FailPoint) (polygon : List (Int × Int)) (now : Rat) :
    List Detection → ViolationTracker → List EventRec × List Action × ViolationTracker
  | [], tracker => ([], [], tracker)
  | person :: rest, tracker =>
      let r := processPersonZone fp polygon person tracker now
      let rr := runPersonsZone fp polygon now rest r.2.2
      (r.1 ++ rr.1, r.2.1 ++ rr.2.1, rr.2.2)

/-- `EventProcessor._process_zone_violations` (lines 172-212):
`if not polygon: return []` (both a missing and an empty polygon), else
process each person whose centroid lies in the polygon. -/
def processZoneViolations (fp : FailPoint) (detections : List Detection)
    (polygon : Option (List (Int × Int))) (tracker : ViolationTracker)
    (now : Rat) : List EventRec × List Action × ViolationTracker :=
  match polygon with
  | none => ([], [], tracker)
  | some poly =>
      if poly = [] then ([], [], tracker)
      else
        let persons := detections.filter (fun d => d.class_id = CLASS_PERSON)
        runPersonsZone fp poly now persons tracker

/-! ## Dedup call traces

`should_emit` is the sole gate in front of `_create_event`; a run of the
pipeline performs a sequence of `should_emit` calls at nondecreasing wall
times.  `runShouldEmit` replays such a call list against a tracker. -/

/-- One `should_emit` call: the wall time and violation key. -/
structure EmitCall where
  time : Rat
  key : String
deriving DecidableEq, Repr

/-- Replay a list of `should_emit` calls, returning each call paired with
its result and the final tracker. -/
def runShouldEmit (tracker : ViolationTracker) :
    List EmitCall → List (EmitCall × Bool) × ViolationTracker
  | [] => ([], tracker)
  | c :: rest =>
      let r := should_emit tracker c.time c.key
      let rr := runShouldEmit r.2 rest
      ((c, r.1) :: rr.1, rr.2)

/-- Cell of the centroid in a `G×G` grid over the inference frame, written
from the spec's words ("the containing cell of a G×G grid (default G = 3)
over the inference frame", rows and columns clamped to the grid): used to
compare the spec's quantization with the code's. -/
def specGridCell (frameW frameH G : Int) (centroid : Int × Int) : Int × Int :=
  (min (Int.fdiv (centroid.2 * G) frameH) (G - 1),
   min (Int.fdiv (centroid.1 * G) frameW) (G - 1))

/-! ## Camera manager (`app/worker/camera_manager.py`) -/

inductive DetectionMode where
  | ppe
  | zone
deriving DecidableEq, Repr

/-- The camera row as read from the database (the fields consulted by
`_add_camera` and `_update_camera`). -/
structure DbCamera where
  rtsp_url : Option String
  credentials_encrypted : Option String
  placeholder_video : Option String
  use_placeholder : Bool
  inference_width : Int
  inference_height : Int
  target_fps : Rat
  detection_mode : DetectionMode
  zone_polygon : Option (List (Int × Int))
  confidence_threshold : Rat
  inference_enabled : Bool
deriving DecidableEq, Repr

/-- The configuration slice of `CameraContext` (camera_manager.py lines
31-62; the runtime-state fields live in `InferLoopState` below). -/
structure CameraCtx where
  rtsp_url : Option String
  credentials_encrypted : Option String
  placeholder_video : Option String
  use_placeholder : Bool
  inference_width : Int
  inference_height : Int
  target_fps : Rat
  detection_mode : DetectionMode
  zone_polygon : Option (List (Int × Int))
  confidence_threshold : Rat
  inference_enabled : Bool
deriving DecidableEq, Repr

/-- `CameraManager._add_camera` (lines 182-211): build the context,
clamping the inference size to at most 400×400. -/
def addCamera (db : DbCamera) : CameraCtx :=
  { rtsp_url := db.rtsp_url
    credentials_encrypted := db.credentials_encrypted
    placeholder_video := db.placeholder_video
    use_placeholder := db.use_placeholder
    inference_width := min db.inference_width 400
    inference_height := min db.inference_height 400
    target_fps := db.target_fps
    detection_mode := db.detection_mode
    zone_polygon := db.zone_polygon
    confidence_threshold := db.confidence_threshold
    inference_enabled := db.inference_enabled }

/-- `source_changed` in `_update_camera` (lines 225-230). -/
def sourceChanged (ctx : CameraCtx) (db : DbCamera) : Bool :=
  ctx.rtsp_url ≠ db.rtsp_url
    ∨ ctx.credentials_encrypted ≠ db.credentials_encrypted
    ∨ ctx.use_placeholder ≠ db.use_placeholder
    ∨ ctx.placeholder_video ≠ db.placeholder_video

/-- `CameraManager._update_camera` (lines 218-246): on a source change the
camera is stopped and re-added (hence re-clamped); otherwise the in-place
fields are overwritten with the database values — with no clamp — and the
zone polygon is overwritten only when the database value is not `None`. -/
def updateCamera (ctx : CameraCtx) (db : DbCamera) : CameraCtx :=
  if sourceChanged ctx db then addCamera db
  else
    { ctx with
      target_fps := db.target_fps
      inference_width := db.inference_width
      inference_height := db.inference_height
      confidence_threshold := db.confidence_threshold
      detection_mode := db.detection_mode
      inference_enabled := db.inference_enabled
      zone_polygon :=
        match db.zone_polygon with
        | none => ctx.zone_polygon
        | some p => some p }

/-- `get_stream_fps` (camera_manager.py lines 313-317) applied to the FPS
value the capture reports (`cv2.CAP_PROP_FPS`; `0` when unknown):

    fps = capture.get(cv2.CAP_PROP_FPS)
    if not fps or fps < 1.0:
        return 15.0
    return fps

The streaming loop then reads one frame every `1.0 / stream_fps` seconds.
-/
def get_stream_fps (reported : Rat) : Rat :=
  if reported = 0 ∨ reported < 1 then 15 else reported

/-- The per-camera read period `stream_interval = 1.0 / stream_fps`. -/
def streamInterval (reported : Rat) : Rat :=
  1 / get_stream_fps reported

/-! ## In-flight inference discipline (camera_manager.py lines 359-476)

The camera loop and `_run_inference` run on one asyncio event loop; the
marker operations below are exactly the code's synchronous blocks:

  * dispatch (lines 362-367): only when `not context.infer_in_flight`,
    set `infer_in_flight = True` and create the inference task — no await
    separates the test from the set;
  * completion: `_run_inference` ends through its `finally` (lines
    465-476) on both the normal path and the path where the predictor
    raised (the `except Exception` at 463-464 swallows the error, so it
    does not propagate to the camera loop); the `finally` always sets
    `infer_in_flight = False`.
-/

/-- Per-camera runtime state relevant to inference dispatch: the in-flight
marker and the number of live inference tasks for this camera. -/
structure InferLoopState where
  infer_in_flight : Bool
  tasks : Nat
deriving DecidableEq, Repr

/-- The atomic transitions of the dispatch discipline. -/
inductive InferStep : InferLoopState → InferLoopState → Prop where
  | dispatch (s : InferLoopState) :
      s.infer_in_flight = false → InferStep s ⟨true, s.tasks + 1⟩
  | completeOk (s : InferLoopState) :
      0 < s.tasks → InferStep s ⟨false, s.tasks - 1⟩
  | completeRaised (s : InferLoopState) :
      0 < s.tasks → InferStep s ⟨false, s.tasks - 1⟩

/-- States reachable from the initial camera state (no task in flight). -/
inductive InferReach : InferLoopState → Prop where
  | init : InferReach ⟨false, 0⟩
  | step {s s' : InferLoopState} :
      InferReach s → InferStep s s' → InferReach s'

/-! ## Basic lemmas about the tracker map -/

theorem lookupEntry_insertEntry (m : List (String × Rat)) (k k' : String) (v : Rat) :
    lookupEntry (insertEntry m k v) k' =
      if k = k' then some v else lookupEntry m k' := by
  induction m with
  | nil => rfl
  | cons hd tl ih =>
      obtain ⟨k0, v0⟩ := hd
      simp only [insertEntry, lookupEntry]
      split_ifs with h0 h1 h2 <;> simp_all [lookupEntry]

theorem should_emit_true_iff (tr : ViolationTracker) (now : Rat) (k : String) :
    (should_emit tr now k).1 = true ↔
      tr.cooldown_seconds ≤ now - ((lookupEntry tr.last_violations k).getD 0) := by
  simp only [should_emit]
  split_ifs with h
  · simpa using h
  · simpa using h

theorem should_emit_true_snd (tr : ViolationTracker) (now : Rat) (k : String)
    (h : (should_emit tr now k).1 = true) :
    (should_emit tr now k).2 =
      { tr with last_violations := insertEntry tr.last_violations k now } := by
  simp only [should_emit] at h ⊢
  split_ifs at h ⊢
  rfl

theorem should_emit_false_snd (tr : ViolationTracker) (now : Rat) (k : String)
    (h : (should_emit tr now k).1 = false) :
    (should_emit tr now k).2 = tr := by
  simp only [should_emit] at h ⊢
  split_ifs at h ⊢
  rfl

theorem should_emit_snd_cooldown (tr : ViolationTracker) (now : Rat) (k : String) :
    (should_emit tr now k).2.cooldown_seconds = tr.cooldown_seconds := by
  simp only [should_emit]
  split_ifs <;> rfl

theorem should_emit_snd_lookup (tr : ViolationTracker) (now : Rat) (k k' : String) :
    lookupEntry (should_emit tr now k).2.last_violations k' =
      if (should_emit tr now k).1 = true ∧ k = k'
      then some now else lookupEntry tr.last_violations k' := by
  cases hres : (should_emit tr now k).1 with
  | true =>
      rw [should_emit_true_snd tr now k hres]
      simp [lookupEntry_insertEntry]
  | false =>
      rw [should_emit_false_snd tr now k hres]
      simp

/-! ## The cooldown-window property of `should_emit` traces -/

/-- If the tracker's entry for `k` is at least `v` and every remaining call
time is at least `v`, then any later call on key `k` that is admitted
(returns `true`) happens at least one cooldown after `v`. -/
theorem runShouldEmit_window_aux (cs : List EmitCall) :
    ∀ (tr : ViolationTracker) (k : String) (v : Rat)
      (o₂ : List (EmitCall × Bool)) (c₂ : EmitCall) (o₃ : List (EmitCall × Bool)),
      (∀ c ∈ cs, v ≤ c.time) →
      v ≤ (lookupEntry tr.last_violations k).getD 0 →
      (runShouldEmit tr cs).1 = o₂ ++ (c₂, true) :: o₃ →
      c₂.key = k →
      v + tr.cooldown_seconds ≤ c₂.time := by
  induction cs with
  | nil =>
      intro tr k v o₂ c₂ o₃ _ _ heq _
      simp [runShouldEmit] at heq
  | cons c rest ih =>
      intro tr k v o₂ c₂ o₃ htimes hinv heq hkey
      simp only [runShouldEmit] at heq
      cases o₂ with
      | nil =>
          rw [List.nil_append] at heq
          have hc : c = c₂ := congrArg Prod.fst (List.head_eq_of_cons_eq heq)
          have hb : (should_emit tr c.time c.key).1 = true :=
            congrArg Prod.snd (List.head_eq_of_cons_eq heq)
          rw [should_emit_true_iff] at hb
          subst hc
          rw [hkey] at hb
          have : v ≤ c.time - tr.cooldown_seconds := by
            have := le_trans hinv (by linarith : ((lookupEntry
              tr.last_violations k).getD 0) ≤ c.time - tr.cooldown_seconds)
            exact this
          linarith
      | cons x o₂x =>
          have hrest : (runShouldEmit (should_emit tr c.time c.key).2 rest).1 =
              o₂x ++ (c₂, true) :: o₃ := List.tail_eq_of_cons_eq heq
          have hinv2 : v ≤ (lookupEntry
              (should_emit tr c.time c.key).2.last_violations k).getD 0 := by
            rw [should_emit_snd_lookup]
            split_ifs with hcase
            · exact le_trans (htimes c (List.mem_cons_self c rest)) (le_of_eq rfl)
            · exact hinv
          have := ih (should_emit tr c.time c.key).2 k v o₂x c₂ o₃
            (fun c0 h0 => htimes c0 (List.mem_cons_of_mem c h0)) hinv2 hrest hkey
          rwa [should_emit_snd_cooldown] at this

/-- Any two admitted (`true`) calls on the same key, in a call list with
nondecreasing times, are at least one cooldown apart. -/
theorem runShouldEmit_window (cs : List EmitCall) :
    ∀ (tr : ViolationTracker) (o₁ : List (EmitCall × Bool)) (c₁ : EmitCall)
      (o₂ : List (EmitCall × Bool)) (c₂ : EmitCall) (o₃ : List (EmitCall × Bool)),
      List.Pairwise (fun a b : EmitCall => a.time ≤ b.time) cs →
      (runShouldEmit tr cs).1 = o₁ ++ (c₁, true) :: (o₂ ++ (c₂, true) :: o₃) →
      c₁.key = c₂.key →
      c₁.time + tr.cooldown_seconds ≤ c₂.time := by
  induction cs with
  | nil =>
      intro tr o₁ c₁ o₂ c₂ o₃ _ heq _
      simp [runShouldEmit] at heq
  | cons c rest ih =>
      intro tr o₁ c₁ o₂ c₂ o₃ hpw heq hkey
      rw [List.pairwise_cons] at hpw
      obtain ⟨hhead, hpw2⟩ := hpw
      simp only [runShouldEmit] at heq
      cases o₁ with
      | nil =>
          rw [List.nil_append] at heq
          have hc : c = c₁ := congrArg Prod.fst (List.head_eq_of_cons_eq heq)
          have hb : (should_emit tr c.time c.key).1 = true :=
            congrArg Prod.snd (List.head_eq_of_cons_eq heq)
          have hrest : (runShouldEmit (should_emit tr c.time c.key).2 rest).1 =
              o₂ ++ (c₂, true) :: o₃ := List.tail_eq_of_cons_eq heq
          have hlk : c.time ≤ (lookupEntry
              (should_emit tr c.time c.key).2.last_violations c.key).getD 0 := by
            rw [should_emit_snd_lookup]
            simp [hb]
          have hkey2 : c₂.key = c.key := by rw [hc, ← hkey]
          have := runShouldEmit_window_aux rest (should_emit tr c.time c.key).2
            c.key c.time o₂ c₂ o₃ hhead hlk hrest hkey2
          rw [should_emit_snd_cooldown] at this
          rw [← hc]
          exact this
      | cons x o₁x =>
          have hrest : (runShouldEmit (should_emit tr c.time c.key).2 rest).1 =
              o₁x ++ (c₁, true) :: (o₂ ++ (c₂, true) :: o₃) :=
            List.tail_eq_of_cons_eq heq
          have := ih (should_emit tr c.time c.key).2 o₁x c₁ o₂ c₂ o₃ hpw2 hrest hkey
          rwa [should_emit_snd_cooldown] at this

/-! ## Shape lemmas for the materialization step -/

theorem emitStep_events_eq (fp : FailPoint) (flag : Bool) (key : String)
    (et : EventType) (vt : ViolationType) (sev : Severity)
    (conf : Rat) (bbox : Box) (tr : ViolationTracker) (now : Rat) :
    (emitStep fp flag key et vt sev conf bbox tr now).1 =
      if flag = true ∧ (should_emit tr now key).1 = true ∧ fp = FailPoint.ok
      then [⟨et, vt, sev, conf, bbox⟩] else [] := by
  simp only [emitStep]
  cases flag
  · simp
  · cases hres : (should_emit tr now key).1
    · simp [hres]
    · cases fp <;> simp [hres, createEvent]

theorem emitStep_tracker_eq (fp : FailPoint) (flag : Bool) (key : String)
    (et : EventType) (vt : ViolationType) (sev : Severity)
    (conf : Rat) (bbox : Box) (tr : ViolationTracker) (now : Rat) :
    (emitStep fp flag key et vt sev conf bbox tr now).2.2 =
      if flag = true then (should_emit tr now key).2 else tr := by
  simp only [emitStep]
  cases flag
  · simp
  · cases hres : (should_emit tr now key).1 <;> simp [hres]

theorem mem_runPersonsPpe (fp : FailPoint) (nh nv : List Detection) (now : Rat) :
    ∀ (ps : List Detection) (tr : ViolationTracker) (e : EventRec),
      e ∈ (runPersonsPpe fp nh nv now ps tr).1 →
      ∃ p ∈ ps,
        (e = ⟨.ppe_violation, .no_hardhat, .high, p.confidence, p.box⟩
          ∧ has_no_hardhat p.box nh = true) ∨
        (e = ⟨.ppe_violation, .no_vest, .medium, p.confidence, p.box⟩
          ∧ has_no_vest p.box nv = true) := by
  intro ps
  induction ps with
  | nil => intro tr e he; simp [runPersonsPpe] at he
  | cons p rest ih =>
      intro tr e he
      simp only [runPersonsPpe, List.mem_append] at he
      cases he with
      | inl h1 =>
          refine ⟨p, List.mem_cons_self p rest, ?_⟩
          simp only [processPersonPpe, List.mem_append] at h1
          cases h1 with
          | inl h2 =>
              rw [emitStep_events_eq] at h2
              split_ifs at h2 with hc
              · exact Or.inl ⟨List.mem_singleton.mp h2, hc.1⟩
              · simp at h2
          | inr h2 =>
              rw [emitStep_events_eq] at h2
              split_ifs at h2 with hc
              · exact Or.inr ⟨List.mem_singleton.mp h2, hc.1⟩
              · simp at h2
      | inr h1 =>
          obtain ⟨p0, hp0, hcase⟩ := ih _ e h1
          exact ⟨p0, List.mem_cons_of_mem p hp0, hcase⟩

theorem mem_runPersonsZone (fp : FailPoint) (poly : List (Int × Int)) (now : Rat) :
    ∀ (ps : List Detection) (tr : ViolationTracker) (e : EventRec),
      e ∈ (runPersonsZone fp poly now ps tr).1 →
      ∃ p ∈ ps, point_in_polygon (get_centroid p.box) poly = true ∧
        e = ⟨.zone_violation, .zone_breach, .critical, p.confidence, p.box⟩ := by
  intro ps
  induction ps with
  | nil => intro tr e he; simp [runPersonsZone] at he
  | cons p rest ih =>
      intro tr e he
      simp only [runPersonsZone, List.mem_append] at he
      cases he with
      | inl h1 =>
          refine ⟨p, List.mem_cons_self p rest, ?_⟩
          simp only [processPersonZone] at h1
          rw [emitStep_events_eq] at h1
          split_ifs at h1 with hc
          · exact ⟨hc.1, List.mem_singleton.mp h1⟩
          · simp at h1
      | inr h1 =>
          obtain ⟨p0, hp0, hcase⟩ := ih _ e h1
          exact ⟨p0, List.mem_cons_of_mem p hp0, hcase⟩

/-- On a `true` result, `should_emit` itself has written `last_seen = now`
for the key (there is no separate `register` step in the worker). -/
theorem should_emit_registers (tr : ViolationTracker) (now : Rat) (k : String)
    (h : (should_emit tr now k).1 = true) :
    lookupEntry (should_emit tr now k).2.last_violations k = some now := by
  rw [should_emit_snd_lookup]
  simp [h]

/-! ## Claims -/

unseal Rat.sub Rat.add Rat.mul Rat.inv in
/-- C1 counterexample: one call to `_process_ppe_violations` on a 320×320
inference frame materializes two `no_hardhat` events (same camera, same
violation kind, zero seconds apart — well inside any 30 s cooldown
window) whose centroids `(25, 50)` and `(100, 50)` lie in the same cell
`(0, 0)` of the 3×3 grid the claim describes.  The code's quantization is
`centroid // 50`, which puts them in different cells, so both are
emitted. -/
theorem C1_counterexample :
    ((processPpeViolations .ok
        [⟨⟨0, 0, 50, 100⟩, 5, 9/10⟩, ⟨⟨0, 0, 50, 30⟩, 2, 9/10⟩,
         ⟨⟨50, 0, 150, 100⟩, 5, 9/10⟩, ⟨⟨50, 0, 150, 30⟩, 2, 9/10⟩]
        ⟨[], 30⟩ 1000).1.map EventRec.violation_type
      = [ViolationType.no_hardhat, ViolationType.no_hardhat]) ∧
    ((processPpeViolations .ok
        [⟨⟨0, 0, 50, 100⟩, 5, 9/10⟩, ⟨⟨0, 0, 50, 30⟩, 2, 9/10⟩,
         ⟨⟨50, 0, 150, 100⟩, 5, 9/10⟩, ⟨⟨50, 0, 150, 30⟩, 2, 9/10⟩]
        ⟨[], 30⟩ 1000).1.map
        (fun e => specGridCell 320 320 3 (get_centroid e.bbox))
      = [(0, 0), (0, 0)]) ∧
    (0 : Rat) < 30 := by
  refine ⟨by decide, by decide, by norm_num⟩

/-- C1 (amended): the deduplication invariant holds for the code's
quantization — per camera, per violation kind and per fixed 50-pixel cell
`(centroid.x // 50, centroid.y // 50)` (not a G×G grid over the frame),
at most one emission is admitted per cooldown window: (i) two admitted
`should_emit` calls on the same key in a time-ordered call sequence are at
least one cooldown apart; (ii)/(iii) a PPE event of either kind is only
materialized when `should_emit` admitted the key built from the kind and
the person centroid's 50-pixel cell; (iv) a zone-breach event likewise is
only materialized when `should_emit` admitted the `zone`-kind key of the
person centroid's 50-pixel cell. -/
theorem C1_amended_window_per_50px_cell :
    (∀ (cs : List EmitCall) (tr : ViolationTracker)
       (o₁ : List (EmitCall × Bool)) (c₁ : EmitCall)
       (o₂ : List (EmitCall × Bool)) (c₂ : EmitCall)
       (o₃ : List (EmitCall × Bool)),
       List.Pairwise (fun a b : EmitCall => a.time ≤ b.time) cs →
       (runShouldEmit tr cs).1 = o₁ ++ (c₁, true) :: (o₂ ++ (c₂, true) :: o₃) →
       c₁.key = c₂.key →
       c₁.time + tr.cooldown_seconds ≤ c₂.time) ∧
    (∀ (fp : FailPoint) (nh nv : List Detection) (p : Detection)
       (tr : ViolationTracker) (now : Rat),
       (processPersonPpe fp nh nv p tr now).1.filter
           (fun e => e.violation_type = ViolationType.no_hardhat) ≠ [] →
       has_no_hardhat p.box nh = true ∧
       (should_emit tr now
         (violationKey "no_hardhat" (get_centroid p.box))).1 = true) ∧
    (∀ (fp : FailPoint) (nh nv : List Detection) (p : Detection)
       (tr : ViolationTracker) (now : Rat),
       (processPersonPpe fp nh nv p tr now).1.filter
           (fun e => e.violation_type = ViolationType.no_vest) ≠ [] →
       has_no_vest p.box nv = true ∧
       (should_emit
         (emitStep fp (has_no_hardhat p.box nh)
           (violationKey "no_hardhat" (get_centroid p.box)) .ppe_violation
           .no_hardhat .high p.confidence p.box tr now).2.2 now
         (violationKey "no_vest" (get_centroid p.box))).1 = true) ∧
    (∀ (fp : FailPoint) (poly : List (Int × Int)) (p : Detection)
       (tr : ViolationTracker) (now : Rat),
       (processPersonZone fp poly p tr now).1 ≠ [] →
       point_in_polygon (get_centroid p.box) poly = true ∧
       (should_emit tr now
         (violationKey "zone" (get_centroid p.box))).1 = true) := by
  refine ⟨runShouldEmit_window, ?_, ?_, ?_⟩
  · intro fp nh nv p tr now hne
    simp only [processPersonPpe, List.filter_append] at hne
    rw [emitStep_events_eq, emitStep_events_eq] at hne
    split_ifs at hne with h1 h2 h3
    · exact ⟨h1.1, h1.2.1⟩
    · exact ⟨h1.1, h1.2.1⟩
    · exfalso; simp at hne
    · exfalso; simp at hne
  · intro fp nh nv p tr now hne
    simp only [processPersonPpe, List.filter_append] at hne
    rw [emitStep_events_eq, emitStep_events_eq] at hne
    split_ifs at hne with h1 h2 h3
    · exact ⟨h2.1, h2.2.1⟩
    · exfalso; simp at hne
    · exact ⟨h3.1, h3.2.1⟩
    · exfalso; simp at hne
  · intro fp poly p tr now hne
    simp only [processPersonZone] at hne
    rw [emitStep_events_eq] at hne
    split_ifs at hne with h1
    · exact ⟨h1.1, h1.2.1⟩
    · exact absurd rfl hne

unseal Rat.sub Rat.add Rat.mul Rat.inv in
/-- C1 witness: the window bound applied to the concrete call sequence
`[(1000, k), (1040, k)]` (both admitted), and the PPE and zone gating
conjuncts applied to concrete detections. -/
theorem C1_amended_witness :
    ((⟨1000, "k"⟩ : EmitCall).time
        + (⟨[], 30⟩ : ViolationTracker).cooldown_seconds
      ≤ (⟨1040, "k"⟩ : EmitCall).time) ∧
    (has_no_hardhat (⟨0, 0, 50, 100⟩ : Box) [⟨⟨0, 0, 50, 30⟩, 2, 1⟩] = true ∧
     (should_emit (⟨[], 30⟩ : ViolationTracker) 1000
       (violationKey "no_hardhat" (get_centroid ⟨0, 0, 50, 100⟩))).1 = true) ∧
    (point_in_polygon (get_centroid ⟨40, 40, 60, 60⟩)
        [(0, 0), (100, 0), (100, 100), (0, 100)] = true ∧
     (should_emit (⟨[], 30⟩ : ViolationTracker) 1000
       (violationKey "zone" (get_centroid ⟨40, 40, 60, 60⟩))).1 = true) := by
  refine ⟨?_, ?_, ?_⟩
  · exact C1_amended_window_per_50px_cell.1
      [⟨1000, "k"⟩, ⟨1040, "k"⟩] (⟨[], 30⟩ : ViolationTracker)
      [] ⟨1000, "k"⟩ [] ⟨1040, "k"⟩ [] (by decide) (by decide) rfl
  · exact C1_amended_window_per_50px_cell.2.1 .ok
      [⟨⟨0, 0, 50, 30⟩, 2, 1⟩] [] ⟨⟨0, 0, 50, 100⟩, 5, 1⟩ ⟨[], 30⟩ 1000
      (by decide)
  · exact C1_amended_window_per_50px_cell.2.2.2 .ok
      [(0, 0), (100, 0), (100, 100), (0, 100)] ⟨⟨40, 40, 60, 60⟩, 5, 1⟩
      ⟨[], 30⟩ 1000 (by decide)

unseal Rat.sub Rat.add Rat.mul Rat.inv in
/-- C2 counterexample: with the database insert raising, a single
no-hardhat detection at `t = 1000` produces the effect trace
`[registerKey, genThumbnail]` — the deduplicator entry is registered by
`should_emit` (before the insert was even attempted) although the insert
failed — and a repeat of the same detection at `t = 1010` (inside the
cooldown) performs no effects at all: it does not re-attempt to
materialize the event. -/
theorem C2_counterexample :
    ((processPpeViolations .insertFail
        [⟨⟨0, 0, 50, 100⟩, 5, 9/10⟩, ⟨⟨0, 0, 50, 30⟩, 2, 9/10⟩]
        ⟨[], 30⟩ 1000).2.1
      = [Action.registerKey "no_hardhat_0_1" 1000, Action.genThumbnail]) ∧
    ((processPpeViolations .insertFail
        [⟨⟨0, 0, 50, 100⟩, 5, 9/10⟩, ⟨⟨0, 0, 50, 30⟩, 2, 9/10⟩]
        ⟨[], 30⟩ 1000).1 = []) ∧
    ((processPpeViolations .ok
        [⟨⟨0, 0, 50, 100⟩, 5, 9/10⟩, ⟨⟨0, 0, 50, 30⟩, 2, 9/10⟩]
        (processPpeViolations .insertFail
          [⟨⟨0, 0, 50, 100⟩, 5, 9/10⟩, ⟨⟨0, 0, 50, 30⟩, 2, 9/10⟩]
          ⟨[], 30⟩ 1000).2.2 1010).2.1 = []) ∧
    ((processPpeViolations .ok
        [⟨⟨0, 0, 50, 100⟩, 5, 9/10⟩, ⟨⟨0, 0, 50, 30⟩, 2, 9/10⟩]
        (processPpeViolations .insertFail
          [⟨⟨0, 0, 50, 100⟩, 5, 9/10⟩, ⟨⟨0, 0, 50, 30⟩, 2, 9/10⟩]
          ⟨[], 30⟩ 1000).2.2 1010).1 = []) := by
  refine ⟨by decide, by decide, by decide, by decide⟩

/-- C2 (amended): within `_create_event` the insert does precede the
publish (a publish effect only ever appears directly after a successful
insert, and never when the body raised earlier), but the deduplicator
entry is written by `should_emit` *before* `_create_event` runs; if the
insert fails the entry remains, so a matching detection within the
cooldown window is *not* re-attempted (only one after the cooldown
expires is). -/
theorem C2_amended_ordering :
    (∀ (fp : FailPoint) (et : EventType) (vt : ViolationType) (sev : Severity)
       (conf : Rat) (bbox : Box) (e : EventRec),
       Action.publishEvent e ∈ (createEvent fp et vt sev conf bbox).2 →
       (createEvent fp et vt sev conf bbox).2 =
         [Action.genThumbnail, Action.insertRow e, Action.publishEvent e]) ∧
    (∀ (fp : FailPoint) (et : EventType) (vt : ViolationType) (sev : Severity)
       (conf : Rat) (bbox : Box),
       fp ≠ FailPoint.ok →
       ∀ e, Action.publishEvent e ∉ (createEvent fp et vt sev conf bbox).2) ∧
    (∀ (tr : ViolationTracker) (now : Rat) (k : String),
       (should_emit tr now k).1 = true →
       lookupEntry (should_emit tr now k).2.last_violations k = some now) ∧
    (∀ (tr : ViolationTracker) (now d : Rat) (k : String),
       (should_emit tr now k).1 = true → d < tr.cooldown_seconds →
       (should_emit (should_emit tr now k).2 (now + d) k).1 = false) := by
  refine ⟨?_, ?_, should_emit_registers, ?_⟩
  · intro fp et vt sev conf bbox e hmem
    cases fp <;> simp_all [createEvent]
  · intro fp et vt sev conf bbox hfp e
    cases fp <;> simp_all [createEvent]
  · intro tr now d k htrue hd
    cases hres : (should_emit (should_emit tr now k).2 (now + d) k).1
    · rfl
    · exfalso
      rw [should_emit_true_iff, should_emit_snd_cooldown,
        should_emit_registers tr now k htrue] at hres
      simp only [Option.getD_some] at hres
      have : now + d - now = d := by ring
      rw [this] at hres
      linarith

unseal Rat.sub Rat.add Rat.mul Rat.inv in
/-- C2 witness: the amended ordering at concrete inputs. -/
theorem C2_amended_witness :
    ((createEvent .ok .ppe_violation .no_hardhat .high 1 ⟨0, 0, 1, 1⟩).2 =
       [Action.genThumbnail,
        Action.insertRow ⟨.ppe_violation, .no_hardhat, .high, 1, ⟨0, 0, 1, 1⟩⟩,
        Action.publishEvent ⟨.ppe_violation, .no_hardhat, .high, 1, ⟨0, 0, 1, 1⟩⟩]) ∧
    (Action.publishEvent ⟨.ppe_violation, .no_hardhat, .high, 1, ⟨0, 0, 1, 1⟩⟩ ∉
       (createEvent .insertFail .ppe_violation .no_hardhat .high 1 ⟨0, 0, 1, 1⟩).2) ∧
    (lookupEntry (should_emit ⟨[], 30⟩ 1000 "k").2.last_violations "k"
       = some 1000) ∧
    ((should_emit (should_emit ⟨[], 30⟩ 1000 "k").2 (1000 + 10) "k").1 = false) := by
  exact ⟨C2_amended_ordering.1 .ok .ppe_violation .no_hardhat .high 1 ⟨0, 0, 1, 1⟩
           ⟨.ppe_violation, .no_hardhat, .high, 1, ⟨0, 0, 1, 1⟩⟩ (by decide),
         C2_amended_ordering.2.1 .insertFail .ppe_violation .no_hardhat .high 1
           ⟨0, 0, 1, 1⟩ (by decide) _,
         C2_amended_ordering.2.2.1 ⟨[], 30⟩ 1000 "k" (by decide),
         C2_amended_ordering.2.2.2 ⟨[], 30⟩ 1000 10 "k" (by decide) (by norm_num)⟩

unseal Rat.sub Rat.add Rat.mul Rat.inv in
/-- C3 counterexample: a call inside the cooldown returns `false` but does
*not* refresh the entry's timestamp (the map still holds `1000`, not
`1010`); and a `true` call writes the entry immediately inside
`should_emit` itself (there is no deferred `register`). -/
theorem C3_counterexample :
    should_emit ⟨[("k", 1000)], 30⟩ 1010 "k"
      = (false, ⟨[("k", 1000)], 30⟩) ∧
    should_emit ⟨[], 30⟩ 1000 "k2"
      = (true, ⟨[("k2", 1000)], 30⟩) := by
  exact ⟨by decide, by decide⟩

/-- C3 (amended): `should_emit` returns `true` iff either no entry exists
and at least one cooldown has elapsed since time 0 (the `.get(key, 0)`
default; for wall-clock times this is always the case), or the existing
entry is at least one cooldown old; on `true` the entry is written to
`now` by `should_emit` itself; on `false` the tracker is left completely
unchanged — the timestamp is not refreshed. -/
theorem C3_amended_should_emit_semantics (tr : ViolationTracker) (now : Rat)
    (k : String) :
    ((should_emit tr now k).1 = true ↔
       ((lookupEntry tr.last_violations k = none ∧ tr.cooldown_seconds ≤ now) ∨
        (∃ v, lookupEntry tr.last_violations k = some v ∧
          tr.cooldown_seconds ≤ now - v))) ∧
    ((should_emit tr now k).1 = true →
       (should_emit tr now k).2.last_violations =
         insertEntry tr.last_violations k now) ∧
    ((should_emit tr now k).1 = false → (should_emit tr now k).2 = tr) := by
  refine ⟨?_, ?_, should_emit_false_snd tr now k⟩
  · rw [should_emit_true_iff]
    cases hl : lookupEntry tr.last_violations k with
    | none => simp [sub_zero]
    | some v => simp
  · intro h
    rw [should_emit_true_snd tr now k h]

unseal Rat.sub Rat.add Rat.mul Rat.inv in
/-- C3 witness: the amended semantics at concrete inputs. -/
theorem C3_amended_witness :
    ((should_emit ⟨[("a", 100)], 30⟩ 1000 "a").1 = true) ∧
    ((should_emit ⟨[("a", 100)], 30⟩ 1000 "a").2.last_violations =
       insertEntry [("a", 100)] "a" 1000) ∧
    ((should_emit ⟨[("a", 100)], 30⟩ 110 "a").2 = ⟨[("a", 100)], 30⟩) := by
  have h1 := (C3_amended_should_emit_semantics ⟨[("a", 100)], 30⟩ 1000 "a").1.mpr
    (Or.inr ⟨100, rfl, by norm_num⟩)
  exact ⟨h1,
    (C3_amended_should_emit_semantics ⟨[("a", 100)], 30⟩ 1000 "a").2.1 h1,
    (C3_amended_should_emit_semantics ⟨[("a", 100)], 30⟩ 110 "a").2.2 (by decide)⟩

/-- C4: for every camera, at most one inference task is in flight.  In
every state reachable under the dispatch discipline of the camera loop
(dispatch only when the marker is clear and set the marker first) and of
`_run_inference` (the `finally` clears the marker on both the normal path
and the path where the predictor raised, which the dispatcher swallows),
the number of live inference tasks is `1` when the marker is set and `0`
when it is clear — in particular it never exceeds one. -/
theorem C4_at_most_one_inference_in_flight (s : InferLoopState)
    (h : InferReach s) :
    s.tasks ≤ 1 ∧ s.tasks = (if s.infer_in_flight then 1 else 0) := by
  have key : s.tasks = (if s.infer_in_flight then 1 else 0) := by
    induction h with
    | init => rfl
    | @step s0 s1 hr hs ih =>
        cases hs with
        | dispatch hflag =>
            rw [hflag] at ih
            simp only [Bool.false_eq_true, if_false] at ih
            simp [ih]
        | completeOk hpos =>
            cases hf : s0.infer_in_flight <;> rw [hf] at ih <;> simp_all
        | completeRaised hpos =>
            cases hf : s0.infer_in_flight <;> rw [hf] at ih <;> simp_all
  refine ⟨?_, key⟩
  rw [key]
  split <;> omega

/-- C4 witness: the invariant applied to the state reached by one
dispatch from the initial state. -/
theorem C4_witness :
    ((⟨true, 1⟩ : InferLoopState).tasks ≤ 1) ∧
    ((⟨true, 1⟩ : InferLoopState).tasks =
      (if (⟨true, 1⟩ : InferLoopState).infer_in_flight then 1 else 0)) :=
  C4_at_most_one_inference_in_flight ⟨true, 1⟩
    (InferReach.step InferReach.init (InferStep.dispatch ⟨false, 0⟩ rfl))

unseal Rat.sub Rat.add Rat.mul Rat.inv in
/-- C5 counterexample: a no-hardhat violation detected with confidence
0.95 (which exceeds 0.8) is materialized with severity `high`, not
`critical` — there is no confidence-based override in the worker's event
processor. -/
theorem C5_counterexample :
    ((processPpeViolations .ok
        [⟨⟨0, 0, 50, 100⟩, 5, 95/100⟩, ⟨⟨0, 0, 50, 30⟩, 2, 95/100⟩]
        ⟨[], 30⟩ 1000).1
      = [⟨.ppe_violation, .no_hardhat, .high, 95/100, ⟨0, 0, 50, 100⟩⟩]) ∧
    (8/10 : Rat) < 95/100 ∧ Severity.high ≠ Severity.critical := by
  refine ⟨by decide, by norm_num, by decide⟩

/-- C5 (amended): severity is a fixed function of the violation kind with
no confidence-based override: every materialized PPE event has severity
`high` (no-hardhat) or `medium` (no-vest), and every zone event has
severity `critical`, whatever the detection confidence. -/
theorem C5_amended_fixed_severity (fp : FailPoint) (dets : List Detection)
    (tr : ViolationTracker) (now : Rat)
    (polygon : Option (List (Int × Int))) :
    (∀ e ∈ (processPpeViolations fp dets tr now).1,
       (e.violation_type = ViolationType.no_hardhat ∧
         e.severity = Severity.high) ∨
       (e.violation_type = ViolationType.no_vest ∧
         e.severity = Severity.medium)) ∧
    (∀ e ∈ (processZoneViolations fp dets polygon tr now).1,
       e.violation_type = ViolationType.zone_breach ∧
       e.severity = Severity.critical) := by
  constructor
  · intro e he
    simp only [processPpeViolations] at he
    obtain ⟨p, hp, hcase⟩ := mem_runPersonsPpe fp _ _ now _ tr e he
    cases hcase with
    | inl hcl => rw [hcl.1]; exact Or.inl ⟨rfl, rfl⟩
    | inr hcl => rw [hcl.1]; exact Or.inr ⟨rfl, rfl⟩
  · intro e he
    cases polygon with
    | none => simp [processZoneViolations] at he
    | some poly =>
        simp only [processZoneViolations] at he
        split_ifs at he with hp
        · simp at he
        · obtain ⟨p, hp2, hin, hcl⟩ := mem_runPersonsZone fp poly now _ tr e he
          rw [hcl]
          exact ⟨rfl, rfl⟩

unseal Rat.sub Rat.add Rat.mul Rat.inv in
/-- C5 witness: the fixed-severity rule applied to a concrete
high-confidence event. -/
theorem C5_amended_witness :
    ((⟨.ppe_violation, .no_hardhat, .high, 95/100,
        ⟨0, 0, 50, 100⟩⟩ : EventRec).violation_type =
          ViolationType.no_hardhat ∧
      (⟨.ppe_violation, .no_hardhat, .high, 95/100,
        ⟨0, 0, 50, 100⟩⟩ : EventRec).severity = Severity.high) ∨
    ((⟨.ppe_violation, .no_hardhat, .high, 95/100,
        ⟨0, 0, 50, 100⟩⟩ : EventRec).violation_type =
          ViolationType.no_vest ∧
      (⟨.ppe_violation, .no_hardhat, .high, 95/100,
        ⟨0, 0, 50, 100⟩⟩ : EventRec).severity = Severity.medium) :=
  (C5_amended_fixed_severity .ok
    [⟨⟨0, 0, 50, 100⟩, 5, 95/100⟩, ⟨⟨0, 0, 50, 30⟩, 2, 95/100⟩]
    ⟨[], 30⟩ 1000 none).1
    ⟨.ppe_violation, .no_hardhat, .high, 95/100, ⟨0, 0, 50, 100⟩⟩ (by decide)

/-- C6: a person is flagged no-hardhat iff some NO-Hardhat detection
overlaps the top-30% head region of the person box with IoU strictly
greater than 0.1, and no-vest iff some NO-Safety-Vest detection overlaps
the full person box with IoU strictly greater than 0.1; an IoU of exactly
0.1 does not flag. -/
theorem C6_ppe_flags_iff_iou (dets : List Detection) (person_box : Box) :
    (has_no_hardhat person_box
        (dets.filter (fun d => d.class_id = CLASS_NO_HARDHAT)) = true ↔
      ∃ d ∈ dets, d.class_id = CLASS_NO_HARDHAT ∧
        box_overlap (head_region person_box) d.box > 1/10) ∧
    (has_no_vest person_box
        (dets.filter (fun d => d.class_id = CLASS_NO_SAFETY_VEST)) = true ↔
      ∃ d ∈ dets, d.class_id = CLASS_NO_SAFETY_VEST ∧
        box_overlap person_box d.box > 1/10) ∧
    (∀ d : Detection, box_overlap (head_region person_box) d.box = 1/10 →
      has_no_hardhat person_box [d] = false) ∧
    (∀ d : Detection, box_overlap person_box d.box = 1/10 →
      has_no_vest person_box [d] = false) := by
  refine ⟨?_, ?_, ?_, ?_⟩
  · simp only [has_no_hardhat, List.any_eq_true, List.mem_filter,
      decide_eq_true_eq]
    constructor
    · rintro ⟨d, ⟨hd, hcl⟩, hio⟩
      exact ⟨d, hd, hcl, hio⟩
    · rintro ⟨d, hd, hcl, hio⟩
      exact ⟨d, ⟨hd, hcl⟩, hio⟩
  · simp only [has_no_vest, List.any_eq_true, List.mem_filter,
      decide_eq_true_eq]
    constructor
    · rintro ⟨d, ⟨hd, hcl⟩, hio⟩
      exact ⟨d, hd, hcl, hio⟩
    · rintro ⟨d, hd, hcl, hio⟩
      exact ⟨d, ⟨hd, hcl⟩, hio⟩
  · intro d h
    simp only [has_no_hardhat, List.any_cons, List.any_nil, Bool.or_false]
    rw [h]
    simp
  · intro d h
    simp only [has_no_vest, List.any_cons, List.any_nil, Bool.or_false]
    rw [h]
    simp

unseal Rat.sub Rat.add Rat.mul Rat.inv in
/-- C6 witness: a NO-Hardhat box with IoU 2/15 > 0.1 against the head
region flags the person; one with IoU exactly 1/10 does not. -/
theorem C6_witness :
    (∃ d ∈ ([⟨⟨0, 0, 10, 4⟩, 2, 1⟩] : List Detection),
       d.class_id = CLASS_NO_HARDHAT ∧
       box_overlap (head_region ⟨0, 0, 10, 100⟩) d.box > 1/10) ∧
    (has_no_hardhat (⟨0, 0, 10, 100⟩ : Box) [⟨⟨0, 0, 10, 3⟩, 2, 1⟩] = false) := by
  constructor
  · exact (C6_ppe_flags_iff_iou [⟨⟨0, 0, 10, 4⟩, 2, 1⟩] ⟨0, 0, 10, 100⟩).1.mp
      (by decide)
  · exact (C6_ppe_flags_iff_iou [] ⟨0, 0, 10, 100⟩).2.2.1
      ⟨⟨0, 0, 10, 3⟩, 2, 1⟩ (by decide)

/-- C7: in zone mode a zone-breach is raised for exactly the persons whose
box centroid passes the point-in-polygon test, and that test is closed on
the boundary: (i) every materialized zone event comes from a person
detection whose centroid is inside; (ii) a person with centroid inside a
nonempty polygon materializes the event when nothing else interferes;
(iii) a person with centroid outside never does; (iv) a point on a
polygon edge tests as inside (`pointPolygonTest` returns 0 there and the
wrapper accepts `≥ 0`). -/
theorem C7_zone_breach_centroid_in_polygon :
    (∀ (fp : FailPoint) (dets : List Detection) (poly : List (Int × Int))
       (tr : ViolationTracker) (now : Rat) (e : EventRec),
       e ∈ (processZoneViolations fp dets (some poly) tr now).1 →
       ∃ d ∈ dets, d.class_id = CLASS_PERSON ∧
         point_in_polygon (get_centroid d.box) poly = true ∧
         e = ⟨.zone_violation, .zone_breach, .critical, d.confidence, d.box⟩) ∧
    (∀ (d : Detection) (poly : List (Int × Int)) (now : Rat),
       d.class_id = CLASS_PERSON → poly ≠ [] → (30 : Rat) ≤ now →
       point_in_polygon (get_centroid d.box) poly = true →
       (processZoneViolations .ok [d] (some poly) ⟨[], 30⟩ now).1 =
         [⟨.zone_violation, .zone_breach, .critical, d.confidence, d.box⟩]) ∧
    (∀ (fp : FailPoint) (d : Detection) (poly : List (Int × Int))
       (tr : ViolationTracker) (now : Rat),
       point_in_polygon (get_centroid d.box) poly = false →
       (processZoneViolations fp [d] (some poly) tr now).1 = []) ∧
    (∀ (pt : Int × Int) (poly : List (Int × Int)),
       (polygonEdges poly).any (fun ed => onSegment pt ed.1 ed.2) = true →
       point_in_polygon pt poly = true) := by
  refine ⟨?_, ?_, ?_, ?_⟩
  · intro fp dets poly tr now e he
    simp only [processZoneViolations] at he
    split_ifs at he with hp
    · simp at he
    · obtain ⟨p, hp2, hin, hcl⟩ := mem_runPersonsZone fp poly now _ tr e he
      rw [List.mem_filter] at hp2
      exact ⟨p, hp2.1, by simpa using hp2.2, hin, hcl⟩
  · intro d poly now hclass hpoly h30 hin
    simp only [processZoneViolations]
    rw [if_neg hpoly]
    have hfil : ([d].filter (fun x => x.class_id = CLASS_PERSON)) = [d] := by
      simp [List.filter, hclass]
    rw [hfil]
    simp only [runPersonsZone, processPersonZone]
    rw [emitStep_events_eq, if_pos]
    · simp
    · refine ⟨hin, ?_, rfl⟩
      rw [should_emit_true_iff]
      simpa [lookupEntry, sub_zero] using h30
  · intro fp d poly tr now h
    simp only [processZoneViolations]
    split_ifs with hp
    · rfl
    · simp only [List.filter]
      cases hcl : decide (d.class_id = CLASS_PERSON)
      · simp [runPersonsZone]
      · simp only [runPersonsZone, processPersonZone]
        rw [emitStep_events_eq, if_neg]
        · simp [runPersonsZone]
        · rintro ⟨h1, -⟩
          rw [h] at h1
          exact Bool.false_ne_true h1
  · intro pt poly h
    unfold point_in_polygon pointPolygonTest
    rw [if_pos h]
    decide

unseal Rat.sub Rat.add Rat.mul Rat.inv in
/-- C7 witness: a person centroid strictly inside a square materializes
the zone event, and a point on the square's bottom edge tests inside. -/
theorem C7_witness :
    ((processZoneViolations .ok [⟨⟨40, 40, 60, 60⟩, 5, 1⟩]
        (some [(0, 0), (100, 0), (100, 100), (0, 100)]) ⟨[], 30⟩ 1000).1 =
      [⟨.zone_violation, .zone_breach, .critical, 1, ⟨40, 40, 60, 60⟩⟩]) ∧
    (point_in_polygon (50, 0) [(0, 0), (100, 0), (100, 100), (0, 100)] = true) := by
  constructor
  · exact C7_zone_breach_centroid_in_polygon.2.1 ⟨⟨40, 40, 60, 60⟩, 5, 1⟩
      [(0, 0), (100, 0), (100, 100), (0, 100)] 1000 rfl (by decide)
      (by norm_num) (by decide)
  · exact C7_zone_breach_centroid_in_polygon.2.2.2 (50, 0)
      [(0, 0), (100, 0), (100, 100), (0, 100)] (by decide)

/-- C8: `_add_camera` clamps the inference size to 400×400, but the
supervisor's in-place update (`_update_camera` with the source fields
unchanged) copies the database values without any clamp: a camera added
at 300×300 whose database row later says 800×800 ends up with a runtime
inference size of 800×800 > 400×400, violating the claimed invariant. -/
theorem C8_clamp_bypassed_by_update :
    ((addCamera
        ⟨none, none, none, false, 800, 800, 1, .ppe, none, 1/2, true⟩).inference_width
      = 400) ∧
    ((updateCamera
        (addCamera ⟨none, none, none, false, 300, 300, 1, .ppe, none, 1/2, true⟩)
        ⟨none, none, none, false, 800, 800, 1, .ppe, none, 1/2, true⟩).inference_width
      = 800) ∧
    ((updateCamera
        (addCamera ⟨none, none, none, false, 300, 300, 1, .ppe, none, 1/2, true⟩)
        ⟨none, none, none, false, 800, 800, 1, .ppe, none, 1/2, true⟩).inference_height
      = 800) ∧
    ¬ (800 : Int) ≤ 400 := by
  refine ⟨by decide, by decide, by decide, by decide⟩

/-- C9 counterexample: a source reporting 30 FPS is read at 30 Hz — the
loop uses the reported FPS unmodified whenever it is at least 1, and the
configured 15 Hz cap (`STREAM_FPS_MAX`) is never applied. -/
theorem C9_counterexample :
    get_stream_fps 30 = 30 ∧ STREAM_FPS_MAX = 15 ∧
    ¬ get_stream_fps 30 ≤ min 30 STREAM_FPS_MAX := by
  refine ⟨by decide, by decide, by decide⟩

/-- C9 (amended): the per-camera read rate equals the source's reported
native FPS whenever that value is at least 1 — even far above the
configured 15 Hz value, which is only the fallback used when the source
reports no FPS (0) or less than 1. -/
theorem C9_amended_native_fps_uncapped (reported : Rat) (h : 1 ≤ reported) :
    get_stream_fps reported = reported ∧
    streamInterval reported = 1 / reported := by
  have h0 : ¬ (reported = 0 ∨ reported < 1) := by
    push_neg
    constructor
    · intro he
      rw [he] at h
      norm_num at h
    · linarith
  have h1 : get_stream_fps reported = reported := by
    unfold get_stream_fps
    rw [if_neg h0]
  refine ⟨h1, ?_⟩
  unfold streamInterval
  rw [h1]

/-- C9 witness: a 30 FPS source is read every 1/30 s. -/
theorem C9_amended_witness :
    get_stream_fps 30 = 30 ∧ streamInterval 30 = 1 / 30 :=
  C9_amended_native_fps_uncapped 30 (by norm_num)

/-- C10: during an in-place configuration update (source fields
unchanged), a `None` database zone polygon leaves the runtime polygon
unchanged, a non-`None` one overwrites it, and the other in-place fields
(target FPS, inference sizes, confidence threshold, detection mode,
inference-enabled) are always overwritten with the database values. -/
theorem C10_update_retains_polygon_on_null (ctx : CameraCtx) (db : DbCamera)
    (hsrc : sourceChanged ctx db = false) :
    ((db.zone_polygon = none →
       (updateCamera ctx db).zone_polygon = ctx.zone_polygon) ∧
     (∀ p, db.zone_polygon = some p →
       (updateCamera ctx db).zone_polygon = some p) ∧
     (updateCamera ctx db).target_fps = db.target_fps ∧
     (updateCamera ctx db).inference_width = db.inference_width ∧
     (updateCamera ctx db).inference_height = db.inference_height ∧
     (updateCamera ctx db).confidence_threshold = db.confidence_threshold ∧
     (updateCamera ctx db).detection_mode = db.detection_mode ∧
     (updateCamera ctx db).inference_enabled = db.inference_enabled) := by
  unfold updateCamera
  rw [hsrc]
  simp only [Bool.false_eq_true, if_false]
  refine ⟨?_, ?_, by trivial, by trivial, by trivial, by trivial,
    by trivial, by trivial⟩
  · intro hz
    rw [hz]
  · intro p hz
    rw [hz]

/-- C10 witness: the update rule at a concrete context whose database row
nulls the polygon and changes every in-place field. -/
theorem C10_witness :
    ((updateCamera
        ⟨none, none, none, false, 320, 320, 1, .zone,
          some [(1, 2), (3, 4), (5, 6)], 1/2, true⟩
        ⟨none, none, none, false, 200, 200, 2, .ppe, none, 3/4, false⟩).zone_polygon
      = some [(1, 2), (3, 4), (5, 6)]) ∧
    ((updateCamera
        ⟨none, none, none, false, 320, 320, 1, .zone,
          some [(1, 2), (3, 4), (5, 6)], 1/2, true⟩
        ⟨none, none, none, false, 200, 200, 2, .ppe, none, 3/4, false⟩).target_fps
      = 2) := by
  have h := C10_update_retains_polygon_on_null
    ⟨none, none, none, false, 320, 320, 1, .zone,
      some [(1, 2), (3, 4), (5, 6)], 1/2, true⟩
    ⟨none, none, none, false, 200, 200, 2, .ppe, none, 3/4, false⟩ (by decide)
  exact ⟨h.1 rfl, h.2.2.1⟩

end HardHats


